import Mathlib

/-
  Shallow embedding of moschopsuk/ndi-router (src/videohub.rs, src/shared.rs,
  src/peer.rs, src/main.rs).

  Modelling conventions:
  - Rust usize becomes Nat; the cast x as u8 becomes x % 256.
  - std::collections::HashMap<K, V> becomes an association list List (K x V)
    holding the map entries.  Insertion (HashMap::insert) replaces the value
    when the key is present; hashInsert below keeps a canonical entry list.
    Rust HashMap iteration order is UNSPECIFIED (randomized SipHash seed), so
    every function of the source that iterates a map (list_routes, list_locks,
    Shared::broadcast) is modelled over an explicit entry sequence; a valid
    iteration sequence is any permutation of the map entries.
  - A Rust panic (Vec index out of bounds, Option::unwrap on None,
    str::parse unwrap on Err) is modelled by the RunResult.panicked
    constructor; RunResult.err exists only to state the error-return
    behaviour that the specification ascribes to the code, which the code
    never actually produces.
  - SocketAddr is modelled as Nat; NDI Source and RouteInstance handles are
    modelled by their names (String).
-/

namespace NdiRouter

/-- Error value the specification says the table operations return; the
source code of videohub.rs has no such type, it panics instead. -/
inductive VhError where
  | outOfRange
deriving DecidableEq

/-- Result of running a fragment of Rust code: normal return, an error
return (never produced by this code base, see VhError), or a panic with its
message. -/
inductive RunResult (A : Type) where
  | ok (a : A)
  | err (e : VhError)
  | panicked (msg : String)
deriving DecidableEq

/-- HashMap::insert on the entry list: replace the value if the key is
present, otherwise add the entry. -/
def hashInsert {A : Type} (m : List (Nat × A)) (k : Nat) (v : A) : List (Nat × A) :=
  if m.any (fun p => p.1 == k) then m.map (fun p => if p.1 = k then (k, v) else p)
  else m ++ [(k, v)]

/-- Vec::join of a list of lines with a newline separator (src/videohub.rs
builds every protocol block this way). -/
def joinLines : List String → String
  | [] => ""
  | a :: rest => rest.foldl (fun acc x => acc ++ "\n" ++ x) a

/-- The routing table of src/videohub.rs.  Field names keep the source
spelling.  routes and locks are the entry lists of the two HashMap<u8, _>
fields. -/
structure VideoHub where
  input_lables : List String
  output_lables : List String
  routes : List (Nat × Nat)
  locks : List (Nat × Option Nat)
deriving DecidableEq

/-- VideoHub::new (src/videohub.rs lines 13-35): default labels, and one
loop over 0..num_outputs inserting (x as u8) -> (x as u8) into routes and
(x as u8) -> None into locks. -/
def VideoHub.new (num_inputs num_outputs : Nat) : VideoHub :=
  { input_lables := (List.range num_inputs).map (fun x => "NDI Input " ++ toString x)
  , output_lables := (List.range num_outputs).map (fun x => "NDI Output " ++ toString x)
  , routes := (List.range num_outputs).foldl (fun m x => hashInsert m (x % 256) (x % 256)) []
  , locks := (List.range num_outputs).foldl (fun m x => hashInsert m (x % 256) (none : Option Nat)) [] }

/-- VideoHub::preamble: format!("PROTOCOL PREAMBLE:\nVersion: \x7b\x7d\n\n", 2.7). -/
def VideoHub.preamble (_self : VideoHub) : String :=
  "PROTOCOL PREAMBLE:\nVersion: 2.7\n\n"

/-- VideoHub::device_info: nine pushed lines joined with newlines; the last
pushed line is itself a newline. -/
def VideoHub.device_info (self : VideoHub) : String :=
  joinLines (("VIDEOHUB DEVICE:") ::
    (["Device present: true",
      "Model name: Blackmagic Smart Videohub",
      "Video inputs: " ++ toString self.input_lables.length,
      "Video processing units: 0",
      "Video outputs: " ++ toString self.output_lables.length,
      "Video monitoring outputs: 0",
      "Serial ports: 0"] ++ [("\n")]))

/-- VideoHub::list_inputs: header, then one line per label with its
enumeration index, then a newline element, joined with newlines. -/
def VideoHub.list_inputs (self : VideoHub) : String :=
  joinLines (("INPUT LABELS:") ::
    (self.input_lables.enum.map (fun p => toString p.1 ++ " " ++ p.2) ++ [("\n")]))

/-- VideoHub::list_outputs: as list_inputs, over the output labels. -/
def VideoHub.list_outputs (self : VideoHub) : String :=
  joinLines (("OUTPUT LABELS:") ::
    (self.output_lables.enum.map (fun p => toString p.1 ++ " " ++ p.2) ++ [("\n")]))

/-- VideoHub::list_routes: iterates the routes HashMap and prints key then
value on each line.  The entries argument is the iteration sequence of the
map (any permutation of the entry list, since HashMap order is
unspecified). -/
def VideoHub.list_routes (entries : List (Nat × Nat)) : String :=
  joinLines (("VIDEO OUTPUT ROUTING:") ::
    (entries.map (fun p => toString p.1 ++ " " ++ toString p.2) ++ [("\n")]))

/-- VideoHub::list_locks: iterates the locks HashMap and prints the key and
the literal U on each line. -/
def VideoHub.list_locks (entries : List (Nat × Option Nat)) : String :=
  joinLines (("VIDEO OUTPUT LOCKS:") ::
    (entries.map (fun p => toString p.1 ++ " " ++ "U") ++ [("\n")]))

/-- VideoHub::set_input_label (src/videohub.rs lines 106-108):
std::mem::replace into self.input_lables[index]; Vec indexing panics when
the index is out of bounds, there is no error return. -/
def VideoHub.set_input_label (self : VideoHub) (index : Nat) (label : String) : RunResult VideoHub :=
  if index < self.input_lables.length then
    RunResult.ok { self with input_lables := self.input_lables.set index label }
  else
    RunResult.panicked ("index out of bounds")

/-- VideoHub::inital_status_dump (source spelling): the six blocks pushed in
order and joined with the empty separator, i.e. concatenated.  The two map
iteration sequences are passed explicitly (see list_routes). -/
def VideoHub.inital_status_dump (self : VideoHub) (rit : List (Nat × Nat))
    (lit : List (Nat × Option Nat)) : String :=
  self.preamble ++ self.device_info ++ self.list_inputs ++ self.list_outputs ++
    VideoHub.list_routes rit ++ VideoHub.list_locks lit

/-- Rust str::split_whitespace on the character list: maximal runs of
non-whitespace characters, empty runs skipped.  cur holds the current word
reversed. -/
def wordsAux : List Char → List Char → List String
  | cur, [] => if cur = [] then [] else [String.mk cur.reverse]
  | cur, c :: cs =>
    if c.isWhitespace then
      (if cur = [] then wordsAux [] cs else String.mk cur.reverse :: wordsAux [] cs)
    else wordsAux (c :: cur) cs

/-- str::split_whitespace (the iterator collected in order). -/
def split_whitespace (s : String) : List String :=
  wordsAux [] s.toList

/-- str::parse for usize: Some of the decimal value on an all-digit
non-empty string, otherwise None (Rust also accepts a leading plus sign,
which no claim depends on, and errors on overflow, which Nat has not). -/
def parse_usize (s : String) : Option Nat :=
  if s.toList ≠ [] ∧ s.toList.all Char.isDigit then
    some (s.toList.foldl (fun n c => n * 10 + (c.toNat - 48)) 0)
  else none

/-- One side effect the process loop in src/main.rs performs while handling
a command.  change r s is RouteInstance::change on actuator r with source s;
sendLine is peer.lines.send; printLine is the println on the locks arm.
broadcastMsg would be a Shared::broadcast call: the constructor exists so
that absence of broadcasting is statable, the dispatcher never produces
it. -/
inductive Action where
  | change (route : String) (source : String)
  | sendLine (s : String)
  | printLine (s : String)
  | broadcastMsg (m : String)
deriving DecidableEq

/-- Whether an action is a broadcast to the other peers. -/
def isBroadcastAction : Action → Bool
  | Action.broadcastMsg _ => true
  | _ => false

/-- The shared server state read by the process loop: the routing table,
the NDI sources (state.inputs) and the per-output route actuators
(state.outputs), each modelled by its name. -/
structure ServerState where
  video_hub : VideoHub
  inputs : List String
  outputs : List String
deriving DecidableEq

/-- The match on msg in the process loop of src/main.rs (lines 254-274).
msg is the line block of one Message::Broadcast event.  Panics of the
source are modelled exactly where they occur: msg[0] and msg[1] indexing,
the two split.next().unwrap().parse().unwrap() chains (first token fully
handled before the second), then route.unwrap() before source.unwrap().
No arm ever mutates the routing table and no arm calls broadcast. -/
def dispatch (st : ServerState) (msg : List String) : RunResult (ServerState × List Action) :=
  match msg with
  | [] => RunResult.panicked ("index out of bounds")
  | keyword :: rest =>
    if keyword = "PING:" then
      RunResult.ok (st, [Action.sendLine ("ACK\n")])
    else if keyword = "VIDEO OUTPUT ROUTING:" then
      match rest with
      | [] => RunResult.panicked ("index out of bounds")
      | params :: _ =>
        match (split_whitespace params).head? with
        | none => RunResult.panicked ("Option unwrap on None")
        | some t1 =>
          match parse_usize t1 with
          | none => RunResult.panicked ("Result unwrap on Err")
          | some oIdx =>
            match (split_whitespace params).tail.head? with
            | none => RunResult.panicked ("Option unwrap on None")
            | some t2 =>
              match parse_usize t2 with
              | none => RunResult.panicked ("Result unwrap on Err")
              | some iIdx =>
                match st.outputs.get? oIdx with
                | none => RunResult.panicked ("Option unwrap on None")
                | some r =>
                  match st.inputs.get? iIdx with
                  | none => RunResult.panicked ("Option unwrap on None")
                  | some s =>
                    RunResult.ok (st, [Action.change r s, Action.sendLine ("ACK\n")])
    else if keyword = "VIDEO OUTPUT LOCKS:" then
      match rest with
      | [] => RunResult.panicked ("index out of bounds")
      | params :: _ => RunResult.ok (st, [Action.printLine params, Action.sendLine ("ACK\n")])
    else
      RunResult.ok (st, [])

/-- LinesCodec decode failure. -/
inductive CodecErr where
  | decodeFailure
deriving DecidableEq

/-- The single event kind the Peer stream produces (src/main.rs lines
187-191). -/
inductive Message where
  | broadcast (lines : List String)
deriving DecidableEq

/-- Poll.Ready item of the framed socket: none is end of stream, otherwise
one decoded line or a codec error. -/
def SocketItem : Type := Option (Except CodecErr String)

/-- One iteration of impl Stream for Peer::poll_next (src/main.rs lines
195-221) when the framed socket is ready.  Arguments: the pending line
buffer, the rx broadcast queue of this peer, the ready socket item.
Returns the new buffer, the rx queue after the iteration, and the emitted
stream item.  The source polls ONLY self.lines; self.rx is never polled,
which the model shows by returning rx unchanged on every path. -/
def pollNext (buf : List String) (rx : List String) (item : Option (Except CodecErr String)) :
    List String × List String × Option (Except CodecErr Message) :=
  match item with
  | none => (buf, rx, none)
  | some (Except.error e) => (buf, rx, some (Except.error e))
  | some (Except.ok line) =>
    if line = "" then ([], rx, some (Except.ok (Message.broadcast buf)))
    else (buf ++ [line], rx, some (Except.ok (Message.broadcast (["None"]))))

/-- The outbound half of one peer channel (tokio mpsc::UnboundedSender):
the queued messages and whether the receiving side still exists. -/
structure PeerChannel where
  queue : List String
  alive : Bool
deriving DecidableEq

/-- UnboundedSender::send: append when the receiver is alive, otherwise
fail; Shared::broadcast discards the returned Result, so the failure case
leaves the channel as it was. -/
def txSend (c : PeerChannel) (m : String) : PeerChannel :=
  if c.alive then { c with queue := c.queue ++ [m] } else c

/-- The loop body of Shared::broadcast (src/shared.rs lines 34-41) on one
peer map entry: send to every peer whose address differs from the sender,
ignoring the send result. -/
def broadcastStep (sender : Nat) (message : String) (p : Nat × PeerChannel) : Nat × PeerChannel :=
  if p.1 ≠ sender then (p.1, txSend p.2 message) else p

/-- Shared::broadcast: iterate the peer map entries (given as their
iteration sequence) applying broadcastStep to each; the map structure
itself is not changed. -/
def sharedBroadcast (peers : List (Nat × PeerChannel)) (sender : Nat) (message : String) :
    List (Nat × PeerChannel) :=
  peers.map (broadcastStep sender message)

/-- Closed form of the u8-keyed insertion loop in VideoHub::new: folding
hashInsert of (x as u8) -> f (x as u8) over 0..n yields the entries
(k, f k) for k below min n 256, in key order. -/
theorem buildRange {A : Type} (f : Nat → A) (n : Nat) :
    (List.range n).foldl (fun m x => hashInsert m (x % 256) (f (x % 256))) [] =
    (List.range (min n 256)).map (fun k => (k, f k)) := by
  induction n with
  | zero => rfl
  | succ n ih =>
    rw [List.range_succ, List.foldl_append, ih]
    simp only [List.foldl_cons, List.foldl_nil]
    by_cases hn : n < 256
    · have hmod : n % 256 = n := Nat.mod_eq_of_lt hn
      have hmin : min n 256 = n := Nat.min_eq_left (Nat.le_of_lt hn)
      have hmin2 : min (n + 1) 256 = n + 1 := Nat.min_eq_left hn
      rw [hmod, hmin, hmin2, hashInsert]
      have hany : ((List.range n).map (fun k => (k, f k))).any (fun p => p.1 == n) = false := by
        rw [List.any_eq_false]
        intro p hp
        rw [List.mem_map] at hp
        obtain ⟨k, hk, rfl⟩ := hp
        rw [List.mem_range] at hk
        simp [Nat.ne_of_lt hk]
      rw [hany]
      simp only [Bool.false_eq_true, if_false]
      rw [List.range_succ, List.map_append]
      rfl
    · have h256 : 256 ≤ n := Nat.le_of_not_lt hn
      have hmod : n % 256 < 256 := Nat.mod_lt _ (by norm_num)
      have hmin : min n 256 = 256 := Nat.min_eq_right h256
      have hmin2 : min (n + 1) 256 = 256 := Nat.min_eq_right (Nat.le_trans h256 (Nat.le_succ n))
      rw [hmin, hmin2, hashInsert]
      have hany : ((List.range 256).map (fun k => (k, f k))).any (fun p => p.1 == n % 256) = true := by
        rw [List.any_eq_true]
        refine ⟨(n % 256, f (n % 256)), ?_, ?_⟩
        · exact List.mem_map_of_mem _ (List.mem_range.mpr hmod)
        · simp
      rw [hany]
      simp only [if_true]
      rw [List.map_map]
      apply List.map_congr_left
      intro k hk
      by_cases hkeq : k = n % 256
      · subst hkeq; simp
      · simp [Function.comp, hkeq]

/-- The routes map built by VideoHub::new holds exactly the identity entries
for the keys below min num_outputs 256, in key order. -/
theorem routes_new (nIn nOut : Nat) :
    (VideoHub.new nIn nOut).routes = (List.range (min nOut 256)).map (fun k => (k, k)) :=
  buildRange (fun k => k) nOut

/-- The locks map built by VideoHub::new holds exactly the unlocked entries
for the keys below min num_outputs 256, in key order. -/
theorem locks_new (nIn nOut : Nat) :
    (VideoHub.new nIn nOut).locks =
      (List.range (min nOut 256)).map (fun k => (k, (none : Option Nat))) :=
  buildRange (fun _ => (none : Option Nat)) nOut

/-- Appending one line to a joined block appends a newline and that line. -/
theorem joinLines_snoc (a : String) (l : List String) (x : String) :
    joinLines (a :: (l ++ [x])) = joinLines (a :: l) ++ "\n" ++ x := by
  simp only [joinLines, List.foldl_append, List.foldl_cons, List.foldl_nil]

/-- Every protocol block of videohub.rs, a nonempty line list whose last
pushed element is a lone newline joined with newline separators, ends in a
blank line. -/
theorem joinLines_block (a : String) (l : List String) :
    ∃ s, joinLines (a :: (l ++ [("\n")])) = s ++ "\n\n" := by
  refine ⟨joinLines (a :: l), ?_⟩
  rw [joinLines_snoc, String.append_assoc]
  rfl

/-- In a duplicate-free list containing s, all but one element differ
from s. -/
theorem countP_ne_of_nodup_mem (l : List Nat) (s : Nat)
    (hnd : l.Nodup) (hmem : s ∈ l) :
    l.countP (fun a => a ≠ s) = l.length - 1 := by
  have hcount : l.count s = 1 := List.count_eq_one_of_mem hnd hmem
  have hlen := List.length_eq_countP_add_countP (fun a => a == s) l
  have hc : l.countP (fun a => a == s) = 1 := by
    rw [← List.count_eq_countP'] at hlen ⊢
    · exact hcount
  have hgoal : l.countP (fun a => ¬(a == s)) = l.length - 1 := by omega
  convert hgoal using 2
  funext a
  simp

/-- C1 counterexample: in VideoHub::new 1 2 the routing table maps output 1
to input 1, and 1 is not below num_inputs = 1, so an output is assigned an
out-of-range input already at construction. -/
theorem C1_counterexample :
    (((1 : Nat), (1 : Nat)) ∈ (VideoHub.new 1 2).routes) ∧ ¬((1 : Nat) < 1) := by
  decide

/-- C1 (amended): every routing entry of VideoHub::new num_inputs
num_outputs assigns output k to input k for k below min num_outputs 256;
the only table operation, set_input_label, never changes the routes, so the
assigned index is below num_inputs on every reachable table exactly when
num_outputs is at most num_inputs — when num_outputs exceeds num_inputs,
outputs from num_inputs upward are assigned out-of-range inputs. -/
theorem C1_routes_in_range (nIn nOut : Nat) :
    (∀ p ∈ (VideoHub.new nIn nOut).routes, p.2 = p.1 ∧ p.1 < min nOut 256)
    ∧ (nOut ≤ nIn → ∀ p ∈ (VideoHub.new nIn nOut).routes, p.2 < nIn)
    ∧ (∀ (vh : VideoHub) (idx : Nat) (lbl : String) (vh2 : VideoHub),
        VideoHub.set_input_label vh idx lbl = RunResult.ok vh2 → vh2.routes = vh.routes) := by
  refine ⟨?_, ?_, ?_⟩
  · intro p hp
    rw [routes_new, List.mem_map] at hp
    obtain ⟨k, hk, rfl⟩ := hp
    rw [List.mem_range] at hk
    exact ⟨rfl, hk⟩
  · intro hle p hp
    rw [routes_new, List.mem_map] at hp
    obtain ⟨k, hk, rfl⟩ := hp
    rw [List.mem_range] at hk
    exact lt_of_lt_of_le (lt_of_lt_of_le hk (min_le_left _ _)) hle
  · intro vh idx lbl vh2 h
    by_cases hidx : idx < vh.input_lables.length
    · simp only [VideoHub.set_input_label, if_pos hidx, RunResult.ok.injEq] at h
      rw [← h]
    · simp [VideoHub.set_input_label, if_neg hidx] at h

/-- C1 witness: with 2 inputs and 2 outputs the entry for output 0 is
assigned input 0, in range. -/
theorem C1_witness :
    (2 ≤ 2 ∧ (((0 : Nat), (0 : Nat)) ∈ (VideoHub.new 2 2).routes)) ∧ (0 : Nat) < 2 :=
  ⟨⟨by decide, by decide⟩, (C1_routes_in_range 2 2).2.1 (by decide) (0, 0) (by decide)⟩

/-- C5 counterexample: VideoHub::new 1 2 labels input 0 as NDI Input 0, not
Input 0, and routes output 1 to input 1 although 1 is not below
min num_inputs num_outputs = 1. -/
theorem C5_counterexample :
    (VideoHub.new 1 2).input_lables = [("NDI Input 0")]
    ∧ ("NDI Input 0" : String) ≠ "Input 0"
    ∧ (((1 : Nat), (1 : Nat)) ∈ (VideoHub.new 1 2).routes)
    ∧ ¬((1 : Nat) < min 1 2) := by
  decide

/-- C5 (amended): VideoHub::new num_inputs num_outputs produces identity
routing for every output k below min num_outputs 256 regardless of
num_inputs, all outputs unlocked, input label i equal to NDI Input i and
output label i equal to NDI Output i. -/
theorem C5_new_spec (nIn nOut : Nat) :
    (VideoHub.new nIn nOut).input_lables =
      (List.range nIn).map (fun i => "NDI Input " ++ toString i)
    ∧ (VideoHub.new nIn nOut).output_lables =
      (List.range nOut).map (fun i => "NDI Output " ++ toString i)
    ∧ (VideoHub.new nIn nOut).routes = (List.range (min nOut 256)).map (fun k => (k, k))
    ∧ (VideoHub.new nIn nOut).locks =
      (List.range (min nOut 256)).map (fun k => (k, (none : Option Nat)))
    ∧ (∀ p ∈ (VideoHub.new nIn nOut).locks, p.2 = none) := by
  refine ⟨rfl, rfl, routes_new nIn nOut, locks_new nIn nOut, ?_⟩
  intro p hp
  rw [locks_new, List.mem_map] at hp
  obtain ⟨k, hk, rfl⟩ := hp
  rfl

/-- C6 counterexample: set_input_label on index 1 of a one-input table
panics with an index-out-of-bounds message; it does not return an
OutOfRange error value. -/
theorem C6_counterexample :
    VideoHub.set_input_label (VideoHub.new 1 1) 1 ("boom") =
      RunResult.panicked ("index out of bounds")
    ∧ VideoHub.set_input_label (VideoHub.new 1 1) 1 ("boom") ≠
      RunResult.err VhError.outOfRange := by
  decide

/-- C6 (amended): set_input_label index label panics (Vec index out of
bounds) when index is not below num_inputs, never returning an error
value; otherwise it replaces exactly the label at that index, leaving every
other label unchanged. -/
theorem C6_set_input_label_spec (vh : VideoHub) (idx : Nat) (lbl : String) :
    (idx < vh.input_lables.length →
      VideoHub.set_input_label vh idx lbl =
        RunResult.ok { vh with input_lables := vh.input_lables.set idx lbl }
      ∧ (vh.input_lables.set idx lbl)[idx]? = some lbl
      ∧ ∀ j, j ≠ idx → (vh.input_lables.set idx lbl)[j]? = vh.input_lables[j]?)
    ∧ (vh.input_lables.length ≤ idx →
      VideoHub.set_input_label vh idx lbl = RunResult.panicked ("index out of bounds"))
    ∧ (∀ e, VideoHub.set_input_label vh idx lbl ≠ RunResult.err e) := by
  refine ⟨?_, ?_, ?_⟩
  · intro h
    refine ⟨by simp [VideoHub.set_input_label, h], List.getElem?_set_self h, ?_⟩
    intro j hj
    exact List.getElem?_set_ne (Ne.symm hj)
  · intro h
    simp [VideoHub.set_input_label, Nat.not_lt.mpr h]
  · intro e h
    by_cases hidx : idx < vh.input_lables.length <;>
      simp [VideoHub.set_input_label, hidx] at h

/-- C6 witness: replacing the label at index 0 of a one-input table
succeeds and stores the new label. -/
theorem C6_witness :
    0 < (VideoHub.new 1 1).input_lables.length
    ∧ VideoHub.set_input_label (VideoHub.new 1 1) 0 ("boom") =
        RunResult.ok { VideoHub.new 1 1 with
          input_lables := (VideoHub.new 1 1).input_lables.set 0 ("boom") } :=
  ⟨by decide, ((C6_set_input_label_spec (VideoHub.new 1 1) 0 ("boom")).1 (by decide)).1⟩

/-- C10: VideoHub::new truncates routing and lock keys to 8 bits: with at
most 256 outputs both maps hold exactly num_outputs entries keyed 0 to
num_outputs minus 1, and with more than 256 outputs later insertions only
overwrite earlier keys, leaving exactly 256 entries, the same maps as for
256 outputs. -/
theorem C10_u8_truncation (nIn nOut : Nat) :
    (nOut ≤ 256 →
      (VideoHub.new nIn nOut).routes.length = nOut
      ∧ (VideoHub.new nIn nOut).routes.map Prod.fst = List.range nOut
      ∧ (VideoHub.new nIn nOut).locks.length = nOut
      ∧ (VideoHub.new nIn nOut).locks.map Prod.fst = List.range nOut)
    ∧ (256 < nOut →
      (VideoHub.new nIn nOut).routes.length = 256
      ∧ (VideoHub.new nIn nOut).locks.length = 256
      ∧ (VideoHub.new nIn nOut).routes = (VideoHub.new nIn 256).routes
      ∧ (VideoHub.new nIn nOut).locks = (VideoHub.new nIn 256).locks) := by
  constructor
  · intro h
    have hm : min nOut 256 = nOut := Nat.min_eq_left h
    rw [routes_new, locks_new, hm]
    refine ⟨by simp, ?_, by simp, ?_⟩ <;>
      · simp only [List.map_map]
        exact List.map_id _ ▸ List.map_congr_left (fun k _ => rfl)
  · intro h
    have hm : min nOut 256 = 256 := Nat.min_eq_right (Nat.le_of_lt h)
    rw [routes_new, locks_new, hm, routes_new, locks_new]
    refine ⟨by simp, by simp, by simp, by simp⟩

/-- C10 witness: 3 outputs give 3 entries; 300 outputs give only 256. -/
theorem C10_witness :
    (3 ≤ 256 ∧ (VideoHub.new 2 3).routes.length = 3)
    ∧ (256 < 300 ∧ (VideoHub.new 2 300).routes.length = 256) :=
  ⟨⟨by decide, ((C10_u8_truncation 2 3).1 (by decide)).1⟩,
   ⟨by decide, ((C10_u8_truncation 2 300).2 (by decide)).1⟩⟩

/-- C7: Shared::broadcast keeps the peer map addresses intact, leaves the
sender entry untouched, appends the message to the queue of every live
peer whose address differs from the sender, silently leaves a dead peer
entry unchanged, and with distinct addresses including the sender the
non-sender entries number exactly one less than the peer count. -/
theorem C7_broadcast_except_sender (peers : List (Nat × PeerChannel)) (sender : Nat)
    (message : String)
    (hnd : (peers.map Prod.fst).Nodup) (hmem : sender ∈ peers.map Prod.fst) :
    (sharedBroadcast peers sender message).map Prod.fst = peers.map Prod.fst
    ∧ (∀ p ∈ peers, p.1 = sender → broadcastStep sender message p = p)
    ∧ (∀ p ∈ peers, p.1 ≠ sender → p.2.alive = true →
        (broadcastStep sender message p).2.queue = p.2.queue ++ [message])
    ∧ (∀ p ∈ peers, p.1 ≠ sender → p.2.alive = false → broadcastStep sender message p = p)
    ∧ peers.countP (fun p => p.1 ≠ sender) = peers.length - 1 := by
  refine ⟨?_, ?_, ?_, ?_, ?_⟩
  · rw [sharedBroadcast, List.map_map]
    apply List.map_congr_left
    intro p _
    by_cases h : p.1 = sender <;> simp [Function.comp, broadcastStep, h]
  · intro p _ hps
    simp [broadcastStep, hps]
  · intro p _ hne halive
    simp [broadcastStep, hne, txSend, halive]
  · intro p _ hne hdead
    simp [broadcastStep, hne, txSend, hdead]
  · have hbr : peers.countP (fun p => p.1 ≠ sender) =
        (peers.map Prod.fst).countP (fun a => a ≠ sender) := by
      rw [List.countP_map]
      rfl
    rw [hbr, countP_ne_of_nodup_mem _ _ hnd hmem, List.length_map]

/-- C7 witness: among three registered peers with distinct addresses, a
broadcast from peer 0 has exactly two non-sender entries. -/
theorem C7_witness :
    (([(0, ⟨[], true⟩), (1, ⟨[], true⟩), (2, ⟨[], false⟩)] :
        List (Nat × PeerChannel)).map Prod.fst).Nodup
    ∧ 0 ∈ (([(0, ⟨[], true⟩), (1, ⟨[], true⟩), (2, ⟨[], false⟩)] :
        List (Nat × PeerChannel)).map Prod.fst)
    ∧ (([(0, ⟨[], true⟩), (1, ⟨[], true⟩), (2, ⟨[], false⟩)] :
        List (Nat × PeerChannel)).countP (fun p => p.1 ≠ 0)) =
      ([(0, ⟨[], true⟩), (1, ⟨[], true⟩), (2, ⟨[], false⟩)] :
        List (Nat × PeerChannel)).length - 1 :=
  ⟨by decide, by decide,
    (C7_broadcast_except_sender
      ([(0, ⟨[], true⟩), (1, ⟨[], true⟩), (2, ⟨[], false⟩)]) 0 ("hello")
      (by decide) (by decide)).2.2.2.2⟩

/-- C2: on a VIDEO OUTPUT ROUTING block naming output 5 when only 2 outputs
exist, the dispatcher panics through Option::unwrap instead of rejecting:
the session task dies.  The same happens for an out-of-range input index.
No table mutation or broadcast happens on any dispatcher path, but the
no-crash part of the claim is false. -/
theorem C2_route_out_of_range_panics :
    dispatch ⟨VideoHub.new 2 2, (["src0", "src1"]), (["out0", "out1"])⟩
        (["VIDEO OUTPUT ROUTING:", "5 0"]) =
      RunResult.panicked ("Option unwrap on None")
    ∧ dispatch ⟨VideoHub.new 2 2, (["src0", "src1"]), (["out0", "out1"])⟩
        (["VIDEO OUTPUT ROUTING:", "1 5"]) =
      RunResult.panicked ("Option unwrap on None")
    ∧ dispatch ⟨VideoHub.new 2 2, (["src0", "src1"]), (["out0", "out1"])⟩
        (["VIDEO OUTPUT ROUTING:", "junk 0"]) =
      RunResult.panicked ("Result unwrap on Err") := by
  decide

/-- C3: on the valid block VIDEO OUTPUT ROUTING: 1 0 with 2 inputs and 2
outputs, the dispatcher only invokes the actuator change for output 1 with
source 0 and replies ACK: the returned shared state is identical, the
routing table still maps output 1 to input 1 (so a later status dump shows
the old route), and the action list contains no broadcast. -/
theorem C3_route_updates_nothing :
    dispatch ⟨VideoHub.new 2 2, (["src0", "src1"]), (["out0", "out1"])⟩
        (["VIDEO OUTPUT ROUTING:", "1 0"]) =
      RunResult.ok (⟨VideoHub.new 2 2, (["src0", "src1"]), (["out0", "out1"])⟩,
        [Action.change ("out1") ("src0"), Action.sendLine ("ACK\n")])
    ∧ ([Action.change ("out1") ("src0"), Action.sendLine ("ACK\n")].all
        (fun a => !(isBroadcastAction a))) = true
    ∧ (((1 : Nat), (1 : Nat)) ∈ (VideoHub.new 2 2).routes)
    ∧ (((1 : Nat), (0 : Nat)) ∉ (VideoHub.new 2 2).routes) := by
  decide

/-- C8: the Peer stream polls only the framed socket: on every iteration
the rx broadcast queue is returned untouched, so no Outbound event is ever
produced and a queued broadcast is never forwarded; concretely, with a
message waiting on rx and a PING line ready on the socket, the emitted
event comes from the socket and rx still holds the message. -/
theorem C8_rx_never_polled :
    (∀ (buf rx : List String) (item : Option (Except CodecErr String)),
      (pollNext buf rx item).2.1 = rx)
    ∧ pollNext ([]) (["OUTBOUND MESSAGE"]) (some (Except.ok ("PING:"))) =
        ((["PING:"]), (["OUTBOUND MESSAGE"]), some (Except.ok (Message.broadcast (["None"]))))
    ∧ (["OUTBOUND MESSAGE"] : List String) ≠ [] := by
  refine ⟨?_, rfl, by decide⟩
  intro buf rx item
  cases item with
  | none => rfl
  | some x =>
    cases x with
    | error e => rfl
    | ok line => by_cases h : line = "" <;> simp [pollNext, h]

/-- C9: an empty socket line emits the buffered lines as one command event
and clears the buffer; a non-empty line is appended to the buffer and the
iteration emits only the placeholder event with the single line None, which
the dispatcher ignores without any action — so exactly one command is
processed per blank-line-terminated block. -/
theorem C9_line_framing (buf rx : List String) (line : String) (st : ServerState) :
    pollNext buf rx (some (Except.ok (""))) =
      (([] : List String), rx, some (Except.ok (Message.broadcast buf)))
    ∧ (line ≠ "" →
        pollNext buf rx (some (Except.ok line)) =
          (buf ++ [line], rx, some (Except.ok (Message.broadcast (["None"])))))
    ∧ dispatch st (["None"]) = RunResult.ok (st, []) := by
  refine ⟨rfl, ?_, rfl⟩
  intro h
  simp [pollNext, h]

/-- C9 witness: the non-empty parameter line 1 0 is accumulated after the
keyword line and only the placeholder event is emitted. -/
theorem C9_witness :
    ("1 0" : String) ≠ ""
    ∧ pollNext (["VIDEO OUTPUT ROUTING:"]) ([]) (some (Except.ok ("1 0"))) =
        ((["VIDEO OUTPUT ROUTING:", "1 0"]), ([] : List String),
          some (Except.ok (Message.broadcast (["None"])))) :=
  ⟨by decide,
    (C9_line_framing (["VIDEO OUTPUT ROUTING:"]) ([]) ("1 0")
      ⟨VideoHub.new 1 1, [], []⟩).2.1 (by decide)⟩

/-- C4 counterexample: the entry sequence (1,1),(0,0) is a permutation of
the routes map of VideoHub::new 2 2, i.e. a possible HashMap iteration
order, and it renders the routing block with output 1 before output 0 —
not in ascending index order, and different bytes than the ascending
order, so the dump is not a function of the abstract table contents. -/
theorem C4_counterexample :
    ([((1 : Nat), (1 : Nat)), (0, 0)]).Perm (VideoHub.new 2 2).routes
    ∧ VideoHub.list_routes ([(1, 1), (0, 0)]) = "VIDEO OUTPUT ROUTING:\n1 1\n0 0\n\n"
    ∧ VideoHub.list_routes ([(1, 1), (0, 0)]) ≠
        VideoHub.list_routes ((VideoHub.new 2 2).routes) := by
  decide

/-- C4 (amended): inital_status_dump is a deterministic function of the
table state together with the iteration sequences of the two HashMaps: the
six blocks appear in the fixed order preamble, device info, input labels,
output labels, routing, locks, each terminated by a blank line, and the
two vector-backed label blocks enumerate indices in ascending order 0, 1,
...; the routing and locks blocks follow the map iteration sequence, which
need not be ascending. -/
theorem C4_dump_structure (vh : VideoHub) (rit : List (Nat × Nat))
    (lit : List (Nat × Option Nat)) :
    VideoHub.inital_status_dump vh rit lit =
      vh.preamble ++ vh.device_info ++ vh.list_inputs ++ vh.list_outputs ++
        VideoHub.list_routes rit ++ VideoHub.list_locks lit
    ∧ (∃ s, vh.preamble = s ++ "\n\n")
    ∧ (∃ s, vh.device_info = s ++ "\n\n")
    ∧ (∃ s, vh.list_inputs = s ++ "\n\n")
    ∧ (∃ s, vh.list_outputs = s ++ "\n\n")
    ∧ (∃ s, VideoHub.list_routes rit = s ++ "\n\n")
    ∧ (∃ s, VideoHub.list_locks lit = s ++ "\n\n")
    ∧ vh.input_lables.enum.map Prod.fst = List.range vh.input_lables.length
    ∧ vh.output_lables.enum.map Prod.fst = List.range vh.output_lables.length := by
  refine ⟨rfl, ⟨"PROTOCOL PREAMBLE:\nVersion: 2.7", rfl⟩,
    joinLines_block _ _, joinLines_block _ _, joinLines_block _ _,
    joinLines_block _ _, joinLines_block _ _,
    List.enum_map_fst _, List.enum_map_fst _⟩

end NdiRouter
